/- Verification of the core logic of the GovBR news dashboard (src/app/main.py):
   a shallow embedding of its filtering, aggregation and rank-selection pipeline
   over the loaded article dataframe, with theorems settling the specification's
   claims about that pipeline. -/
import Mathlib

namespace GovBR

/-- A row of the loaded dataframe (load_data): the schema columns the core uses
(agency, published_at, title, url) together with the temporal bucket columns
derived once at load time (year, month, week, day).  Calendar values are encoded
as naturals in a calendar-order-preserving way: a day y-m-d is the number
(y*100 + m)*100 + d, and published_at is dayEncoding * 10000 + timeOfDay with
timeOfDay < 10000, so that comparing encodings is comparing calendar order. -/
structure Article where
  agency : String
  published_at : Nat
  title : String
  url : String
  year : Nat
  month : Nat
  week : Nat
  day : Nat
  deriving DecidableEq

/-- The four temporal granularities offered by select_granularity. -/
inductive Granularity
  | year
  | month
  | week
  | day
  deriving DecidableEq

/-- Reading the bucket column selected by the granularity
(self.granularity_column indexes one of the derived columns). -/
def granValue : Granularity → Article → Nat
  | Granularity.year, a => a.year
  | Granularity.month, a => a.month
  | Granularity.week, a => a.week
  | Granularity.day, a => a.day

/-- Line 318 of run: df[df["agency"].isin(selected_agencies)]. -/
def filter_by_agencies (df : List Article) (selected : List String) : List Article :=
  df.filter (fun a => decide (a.agency ∈ selected))

/-- filter_data: df[(df["day"] >= selected_range[0]) & (df["day"] <= selected_range[1])]. -/
def filter_data (df : List Article) (selected_range : Nat × Nat) : List Article :=
  df.filter (fun a => decide (selected_range.1 ≤ a.day) && decide (a.day ≤ selected_range.2))

/-- The filtering pipeline of run: first the agency filter (line 318), then the
day-range filter (line 339). -/
def filter_pipeline (df : List Article) (selected : List String) (selected_range : Nat × Nat) :
    List Article :=
  filter_data (filter_by_agencies df selected) selected_range

/-- CLAIM C2: the filtering pipeline keeps exactly the articles whose agency is
in the selection and whose day bucket lies in the inclusive date range; an empty
selection or an inverted range gives the empty result, with no error (the
embedded functions are total). -/
theorem c2_filter_pipeline_exact (df : List Article) (selected : List String) (lo hi : Nat) :
    (∀ a : Article, a ∈ filter_pipeline df selected (lo, hi) ↔
      a ∈ df ∧ a.agency ∈ selected ∧ lo ≤ a.day ∧ a.day ≤ hi) ∧
    filter_pipeline df [] (lo, hi) = [] ∧
    (hi < lo → filter_pipeline df selected (lo, hi) = []) := by
  refine ⟨?_, ?_, ?_⟩
  · intro a
    simp only [filter_pipeline, filter_data, filter_by_agencies, List.filter_filter,
      List.mem_filter, Bool.and_eq_true, decide_eq_true_eq]
    tauto
  · simp [filter_pipeline, filter_data, filter_by_agencies]
  · intro h
    simp only [filter_pipeline, filter_data, filter_by_agencies, List.filter_filter]
    refine List.filter_eq_nil_iff.2 ?_
    intro a _
    simp only [Bool.and_eq_true, decide_eq_true_eq]
    omega

/-- A concrete article used to evaluate the pipeline in witnesses:
published 2021-01-01 (encoded day 20210101). -/
def artA1 : Article :=
  { agency := "A", published_at := 202101010900, title := "tA1", url := "uA1",
    year := 2021, month := 202101, week := 202053, day := 20210101 }

/-- A second article of agency A published 2021-01-02. -/
def artA2 : Article :=
  { agency := "A", published_at := 202101021000, title := "tA2", url := "uA2",
    year := 2021, month := 202101, week := 202053, day := 20210102 }

/-- An article of agency B published 2021-01-01. -/
def artB1 : Article :=
  { agency := "B", published_at := 202101011100, title := "tB1", url := "uB1",
    year := 2021, month := 202101, week := 202053, day := 20210101 }

/-- Witness for C2 at the spec's scenario dataset: evaluates the pipeline on
concrete inputs, discharging the inverted-range hypothesis. -/
theorem c2_filter_pipeline_witness :
    (artA1 ∈ filter_pipeline [artA1, artA2, artB1] ["A", "B"] (20210101, 20210102) ↔
      artA1 ∈ [artA1, artA2, artB1] ∧ artA1.agency ∈ ["A", "B"] ∧
        20210101 ≤ artA1.day ∧ artA1.day ≤ 20210102) ∧
    filter_pipeline [artA1, artA2, artB1] ["A", "B"] (20210102, 20210101) = [] := by
  refine ⟨(c2_filter_pipeline_exact [artA1, artA2, artB1] ["A", "B"] 20210101 20210102).1 artA1,
    (c2_filter_pipeline_exact [artA1, artA2, artB1] ["A", "B"] 20210102 20210101).2.2 ?_⟩
  decide

/-- Sum of a pointwise sum of naturals splits over the two summands. -/
theorem sum_map_add_nat {K : Type} (L : List K) (f g : K → Nat) :
    (L.map (fun k => f k + g k)).sum = (L.map f).sum + (L.map g).sum := by
  induction L with
  | nil => simp
  | cons a L ih => simp only [List.map_cons, List.sum_cons, ih]; omega

/-- Summing the indicator of x over a list without duplicates counts whether x occurs. -/
theorem sum_map_ite_mem {K : Type} [DecidableEq K] (L : List K) (x : K) (h : L.Nodup) :
    (L.map (fun k => if x = k then 1 else 0)).sum = if x ∈ L then 1 else 0 := by
  induction L with
  | nil => simp
  | cons a L ih =>
    rcases List.nodup_cons.1 h with ⟨ha, hL⟩
    simp only [List.map_cons, List.sum_cons, ih hL, List.mem_cons]
    by_cases hx : x = a
    · subst hx
      simp [ha]
    · simp [hx]

/-- Summing per-key multiplicities of keys over the keys of D selected by p
recovers the number of key occurrences satisfying p, provided D has no
duplicates and covers every occurring key selected by p. -/
theorem sum_count_over {K : Type} [BEq K] [LawfulBEq K] [DecidableEq K]
    (keys : List K) (D : List K) (p : K → Bool)
    (hD : D.Nodup) (hcov : ∀ k, k ∈ keys → p k = true → k ∈ D) :
    ((D.filter p).map (fun k => keys.count k)).sum = keys.countP p := by
  induction keys with
  | nil =>
    simp only [List.countP_nil]
    refine List.sum_eq_zero ?_
    intro x hx
    rcases List.mem_map.1 hx with ⟨k, _, hk⟩
    simpa [List.count_nil] using hk.symm
  | cons x ks ih =>
    have hcov' : ∀ k, k ∈ ks → p k = true → k ∈ D :=
      fun k hk => hcov k (List.mem_cons_of_mem x hk)
    have hcount : (D.filter p).map (fun k => (x :: ks).count k)
        = (D.filter p).map (fun k => ks.count k + if x = k then 1 else 0) := by
      refine List.map_congr_left ?_
      intro k _
      rw [List.count_cons]
      congr 1
      simp [beq_iff_eq]
    rw [hcount, sum_map_add_nat, ih hcov', sum_map_ite_mem (D.filter p) x (hD.filter p),
      List.countP_cons]
    congr 1
    by_cases hp : p x = true
    · simp [List.mem_filter, hp, hcov x (List.mem_cons_self x ks) hp]
    · simp [List.mem_filter, hp]

/-- aggregate_data: value_counts() of the granularity column (one row per
distinct bucket value, carrying its multiplicity) followed by sort_index()
(ascending by bucket value); the underlying sort is modelled by the stable
insertionSort. -/
def aggregate_data (df : List Article) (g : Granularity) : List (Nat × Nat) :=
  (List.insertionSort (fun v w => v ≤ w) ((df.map (granValue g)).dedup)).map
    (fun v => (v, (df.map (granValue g)).count v))

/-- The groupby key order of groupby([granularity_column, "agency"]): ascending
lexicographic on the (bucket, agency) pair, agency names compared as pandas
compares python strings, lexicographically by character. -/
def keyAsc (k₁ k₂ : Nat × String) : Prop :=
  k₁.1 < k₂.1 ∨ (k₁.1 = k₂.1 ∧ k₁.2.data ≤ k₂.2.data)

instance : DecidableRel keyAsc := by
  intro k₁ k₂
  unfold keyAsc
  infer_instance

instance : IsTotal (Nat × String) keyAsc := by
  refine ⟨fun k₁ k₂ => ?_⟩
  unfold keyAsc
  rcases Nat.lt_trichotomy k₁.1 k₂.1 with h | h | h
  · exact Or.inl (Or.inl h)
  · rcases le_total k₁.2.data k₂.2.data with h2 | h2
    · exact Or.inl (Or.inr ⟨h, h2⟩)
    · exact Or.inr (Or.inr ⟨h.symm, h2⟩)
  · exact Or.inr (Or.inl h)

instance : IsTrans (Nat × String) keyAsc := by
  refine ⟨fun k₁ k₂ k₃ h12 h23 => ?_⟩
  unfold keyAsc at h12 h23 ⊢
  rcases h12 with h12 | ⟨h12e, h12s⟩
  · rcases h23 with h23 | ⟨h23e, _⟩
    · exact Or.inl (h12.trans h23)
    · exact Or.inl (h23e ▸ h12)
  · rcases h23 with h23 | ⟨h23e, h23s⟩
    · exact Or.inl (h12e ▸ h23)
    · exact Or.inr ⟨h12e.trans h23e, h12s.trans h23s⟩

/-- aggregate_by_agency: groupby([granularity_column, "agency"]).size()
.reset_index(name="Count"); groupby with the default sort=True emits one row
per distinct (bucket, agency) key in ascending key order, carrying the group
size. -/
def aggregate_by_agency (df : List Article) (g : Granularity) : List (Nat × String × Nat) :=
  (List.insertionSort keyAsc ((df.map (fun a => (granValue g a, a.agency))).dedup)).map
    (fun k => (k.1, k.2, (df.map (fun a => (granValue g a, a.agency))).count k))

/-- The sorted distinct keys of a list: without duplicates, and containing
exactly the values that occur. -/
theorem sortedDedup_nodup_mem {K : Type} [DecidableEq K] (r : K → K → Prop) [DecidableRel r]
    (l : List K) :
    (List.insertionSort r l.dedup).Nodup ∧
      ∀ k, k ∈ List.insertionSort r l.dedup ↔ k ∈ l := by
  constructor
  · exact (List.perm_insertionSort r l.dedup).symm.nodup (List.nodup_dedup l)
  · intro k
    rw [(List.perm_insertionSort r l.dedup).mem_iff, List.mem_dedup]

/-- CLAIM C3: for every filtered article set and granularity, the counts of the
total aggregation sum to the number of articles, and so do the counts of the
by-agency aggregation. -/
theorem c3_aggregation_sums (df : List Article) (g : Granularity) :
    ((aggregate_data df g).map (fun r => r.2)).sum = df.length ∧
      ((aggregate_by_agency df g).map (fun r => r.2.2)).sum = df.length := by
  constructor
  · unfold aggregate_data
    rw [List.map_map]
    have h := sortedDedup_nodup_mem (fun v w => v ≤ w) (df.map (granValue g))
    have := sum_count_over (df.map (granValue g))
      (List.insertionSort (fun v w => v ≤ w) ((df.map (granValue g)).dedup))
      (fun _ => true) h.1 (fun k hk _ => (h.2 k).2 hk)
    simpa [List.countP_true] using this
  · unfold aggregate_by_agency
    have h := sortedDedup_nodup_mem keyAsc (df.map (fun a => (granValue g a, a.agency)))
    have hsum := sum_count_over (df.map (fun a => (granValue g a, a.agency)))
      (List.insertionSort keyAsc ((df.map (fun a => (granValue g a, a.agency))).dedup))
      (fun _ => true) h.1 (fun k hk _ => (h.2 k).2 hk)
    simp only [List.map_map, Function.comp_def]
    simpa [List.countP_true] using hsum

/-- Multiplicity of a bucket value in the mapped column is the number of
articles whose bucket equals it. -/
theorem count_map_eq_filter_length (df : List Article) (g : Granularity) (v : Nat) :
    (df.map (granValue g)).count v
      = (df.filter (fun a => decide (granValue g a = v))).length := by
  rw [List.count_eq_countP, List.countP_map, ← List.countP_eq_length_filter]
  refine List.countP_congr ?_
  intro a _
  simp only [Function.comp_apply, beq_iff_eq, decide_eq_true_eq]

/-- CLAIM C5: the total aggregation has strictly ascending (hence unique) bucket
values, and its rows are exactly the occurring bucket values, each paired with
the number of articles in that bucket. -/
theorem c5_total_aggregation (df : List Article) (g : Granularity) :
    ((aggregate_data df g).map Prod.fst).Pairwise (fun v w => v < w) ∧
      ∀ v c, (v, c) ∈ aggregate_data df g ↔
        v ∈ df.map (granValue g) ∧
          c = (df.filter (fun a => decide (granValue g a = v))).length := by
  have h := sortedDedup_nodup_mem (fun v w : Nat => v ≤ w) (df.map (granValue g))
  constructor
  · unfold aggregate_data
    rw [List.map_map, List.pairwise_map]
    have hsorted : ((df.map (granValue g)).dedup.insertionSort (fun v w => v ≤ w)).Pairwise
        (fun v w => v ≤ w) :=
      List.sorted_insertionSort (fun v w => v ≤ w) ((df.map (granValue g)).dedup)
    exact (hsorted.and h.1).imp (fun hab => lt_of_le_of_ne hab.1 hab.2)
  · intro v c
    unfold aggregate_data
    rw [List.mem_map]
    constructor
    · rintro ⟨v', hv', heq⟩
      have h1 : v' = v := congrArg Prod.fst heq
      subst h1
      have h2 : (df.map (granValue g)).count v' = c := congrArg Prod.snd heq
      exact ⟨(h.2 v').1 hv', by rw [← h2, count_map_eq_filter_length]⟩
    · rintro ⟨hv, rfl⟩
      exact ⟨v, (h.2 v).2 hv, by rw [count_map_eq_filter_length]⟩

/-- Agency-name ascending order: pandas sorts a groupby index of python strings
lexicographically by character, which is the order on the character list. -/
def agAsc (a b : String) : Prop := a.data ≤ b.data

instance : DecidableRel agAsc := by
  intro a b
  unfold agAsc
  infer_instance

instance : IsTotal String agAsc :=
  ⟨fun a b => le_total a.data b.data⟩

instance : IsTrans String agAsc :=
  ⟨fun _ _ _ h1 h2 => le_trans h1 h2⟩

/-- Descending-by-value order on a per-agency totals series.  Series.nlargest
with the default keep="first" is a stable selection: entries are ordered by
descending value, and ties keep their order in the series. -/
def countDesc (p q : String × Nat) : Prop := q.2 ≤ p.2

instance : DecidableRel countDesc := by
  intro p q
  unfold countDesc
  infer_instance

instance : IsTotal (String × Nat) countDesc :=
  ⟨fun p q => le_total q.2 p.2⟩

instance : IsTrans (String × Nat) countDesc :=
  ⟨fun _ _ _ h1 h2 => le_trans h2 h1⟩

/-- data.groupby("Agency")["Count"].sum() of plot_by_agency (line 201-203): one
entry per distinct agency, in ascending name order, carrying the sum of that
agency's Count column. -/
def groupby_sum (data : List (Nat × String × Nat)) : List (String × Nat) :=
  (List.insertionSort agAsc ((data.map (fun r => r.2.1)).dedup)).map
    (fun ag => (ag, ((data.filter (fun r => decide (r.2.1 = ag))).map (fun r => r.2.2)).sum))

/-- filtered_df.groupby("agency")["title"].count() of display_filtered_articles
(lines 249-251): the title column is a string column with no missing values, so
the per-group non-null count is the group size. -/
def groupby_count (df : List Article) : List (String × Nat) :=
  (List.insertionSort agAsc ((df.map (fun a => a.agency)).dedup)).map
    (fun ag => (ag, (df.filter (fun a => decide (a.agency = ag))).length))

/-- The stable descending order of a per-agency totals series underlying
Series.nlargest. -/
def ranked (s : List (String × Nat)) : List (String × Nat) :=
  List.insertionSort countDesc s

/-- Series.nlargest(n): the first n entries of the stable descending order (all
of them when n exceeds the series length). -/
def series_nlargest (s : List (String × Nat)) (n : Nat) : List (String × Nat) :=
  (ranked s).take n

/-- .iloc[lo - 1 : hi]: the python slice from index lo-1 (inclusive) to hi
(exclusive), which clamps to the available length; lo ≥ 1 since the rank slider
starts at 1. -/
def ilocSlice (s : List (String × Nat)) (lo hi : Nat) : List (String × Nat) :=
  (s.drop (lo - 1)).take (hi - (lo - 1))

/-- top_agencies of plot_by_agency (lines 200-207). -/
def top_agencies (data : List (Nat × String × Nat)) (rank_range : Nat × Nat) : List String :=
  (ilocSlice (series_nlargest (groupby_sum data) rank_range.2) rank_range.1 rank_range.2).map
    Prod.fst

/-- plot_by_agency's row selection (line 208): the aggregated rows whose agency
falls in the rank window. -/
def plot_by_agency (data : List (Nat × String × Nat)) (rank_range : Nat × Nat) :
    List (Nat × String × Nat) :=
  data.filter (fun r => decide (r.2.1 ∈ top_agencies data rank_range))

/-- top_agencies of display_filtered_articles (lines 248-255). -/
def top_agencies_table (df : List Article) (rank_range : Nat × Nat) : List String :=
  (ilocSlice (series_nlargest (groupby_count df) rank_range.2) rank_range.1 rank_range.2).map
    Prod.fst

/-- display_filtered_articles' row selection (line 258). -/
def filtered_articles (df : List Article) (rank_range : Nat × Nat) : List Article :=
  df.filter (fun a => decide (a.agency ∈ top_agencies_table df rank_range))

/-- Slicing the nlargest prefix with .iloc[lo-1 : hi] is taking the top hi of
the full descending order and dropping the first lo-1 of them: the trailing
take of the python slice never cuts anything. -/
theorem ilocSlice_nlargest (s : List (String × Nat)) (lo hi : Nat) :
    ilocSlice (series_nlargest s hi) lo hi = ((ranked s).take hi).drop (lo - 1) := by
  unfold ilocSlice series_nlargest
  refine List.take_of_length_le ?_
  rw [List.length_drop, List.length_take]
  have := min_le_left hi (ranked s).length
  omega

theorem ranked_length (s : List (String × Nat)) : (ranked s).length = s.length :=
  (List.perm_insertionSort countDesc s).length_eq

theorem ranked_mem (s : List (String × Nat)) (x : String × Nat) : x ∈ ranked s ↔ x ∈ s :=
  (List.perm_insertionSort countDesc s).mem_iff

/-- The index of a groupby on a string column: the distinct values, each once,
in ascending name order. -/
theorem groupby_sum_fst (data : List (Nat × String × Nat)) :
    (groupby_sum data).map Prod.fst
      = List.insertionSort agAsc ((data.map (fun r => r.2.1)).dedup) := by
  unfold groupby_sum
  rw [List.map_map]
  exact (List.map_congr_left (fun _ _ => rfl)).trans (List.map_id _)

theorem groupby_count_fst (df : List Article) :
    (groupby_count df).map Prod.fst
      = List.insertionSort agAsc ((df.map (fun a => a.agency)).dedup) := by
  unfold groupby_count
  rw [List.map_map]
  exact (List.map_congr_left (fun _ _ => rfl)).trans (List.map_id _)

/-- CLAIM C1: for RankWindow [lo, hi] with 1 ≤ lo ≤ hi, both rank-selection
variants keep exactly the rows whose agency is among the list obtained by
ordering agencies descending by total count, taking the top hi and dropping the
first lo-1; and the window (1, N), N the number of distinct agencies, keeps
every row.  The groupby outputs have one entry per distinct agency, so N is
their length. -/
theorem c1_rank_window (data : List (Nat × String × Nat)) (df : List Article)
    (lo hi : Nat) (h1 : 1 ≤ lo) (h2 : lo ≤ hi) :
    (∀ r, r ∈ plot_by_agency data (lo, hi) ↔
        r ∈ data ∧
          r.2.1 ∈ (((ranked (groupby_sum data)).take hi).drop (lo - 1)).map Prod.fst) ∧
    (∀ a, a ∈ filtered_articles df (lo, hi) ↔
        a ∈ df ∧
          a.agency ∈ (((ranked (groupby_count df)).take hi).drop (lo - 1)).map Prod.fst) ∧
    (groupby_sum data).length = ((data.map (fun r => r.2.1)).dedup).length ∧
    (groupby_count df).length = ((df.map (fun a => a.agency)).dedup).length ∧
    (∀ r ∈ data, r ∈ plot_by_agency data (1, (groupby_sum data).length)) ∧
    (∀ a ∈ df, a ∈ filtered_articles df (1, (groupby_count df).length)) := by
  have hslice1 := ilocSlice_nlargest (groupby_sum data) lo hi
  have hslice2 := ilocSlice_nlargest (groupby_count df) lo hi
  refine ⟨?_, ?_, ?_, ?_, ?_, ?_⟩
  · intro r
    unfold plot_by_agency top_agencies
    rw [List.mem_filter, decide_eq_true_eq]
    simp only [hslice1]
  · intro a
    unfold filtered_articles top_agencies_table
    rw [List.mem_filter, decide_eq_true_eq]
    simp only [hslice2]
  · unfold groupby_sum
    rw [List.length_map, (List.perm_insertionSort agAsc _).length_eq]
  · unfold groupby_count
    rw [List.length_map, (List.perm_insertionSort agAsc _).length_eq]
  · intro r hr
    unfold plot_by_agency
    rw [List.mem_filter, decide_eq_true_eq]
    refine ⟨hr, ?_⟩
    unfold top_agencies
    rw [ilocSlice_nlargest]
    have htake : (ranked (groupby_sum data)).take (groupby_sum data).length
        = ranked (groupby_sum data) :=
      List.take_of_length_le (by rw [ranked_length])
    have hperm : (ranked (groupby_sum data)).Perm (groupby_sum data) :=
      List.perm_insertionSort countDesc _
    rw [htake, Nat.sub_self, List.drop_zero, (hperm.map Prod.fst).mem_iff,
      groupby_sum_fst, (List.perm_insertionSort agAsc _).mem_iff, List.mem_dedup]
    exact List.mem_map.2 ⟨r, hr, rfl⟩
  · intro a ha
    unfold filtered_articles
    rw [List.mem_filter, decide_eq_true_eq]
    refine ⟨ha, ?_⟩
    unfold top_agencies_table
    rw [ilocSlice_nlargest]
    have htake : (ranked (groupby_count df)).take (groupby_count df).length
        = ranked (groupby_count df) :=
      List.take_of_length_le (by rw [ranked_length])
    have hperm : (ranked (groupby_count df)).Perm (groupby_count df) :=
      List.perm_insertionSort countDesc _
    rw [htake, Nat.sub_self, List.drop_zero, (hperm.map Prod.fst).mem_iff,
      groupby_count_fst, (List.perm_insertionSort agAsc _).mem_iff, List.mem_dedup]
    exact List.mem_map.2 ⟨a, ha, rfl⟩

/-- Witness for C1 on the spec's scenario dataset (agencies A with 2 articles
and B with 1): the full window keeps every article. -/
theorem c1_rank_window_witness :
    artA1 ∈ filtered_articles [artA1, artA2, artB1]
      (1, (groupby_count [artA1, artA2, artB1]).length) :=
  (c1_rank_window [] [artA1, artA2, artB1] 1 2 (by decide) (by decide)).2.2.2.2.2
    artA1 (by decide)

/-- CLAIM C4: a rank window reaching past the number of distinct agencies
silently clamps (both variants return the agencies from rank lo onward), and an
inverted window lo > hi returns the empty selection; no exception is possible,
the embedded selectors being total functions. -/
theorem c4_rank_window_clamp (data : List (Nat × String × Nat)) (df : List Article)
    (lo hi : Nat) (h1 : 1 ≤ lo) :
    ((groupby_sum data).length ≤ hi →
      top_agencies data (lo, hi) = ((ranked (groupby_sum data)).drop (lo - 1)).map Prod.fst) ∧
    ((groupby_count df).length ≤ hi →
      top_agencies_table df (lo, hi)
        = ((ranked (groupby_count df)).drop (lo - 1)).map Prod.fst) ∧
    (hi < lo →
      top_agencies data (lo, hi) = [] ∧ plot_by_agency data (lo, hi) = [] ∧
        top_agencies_table df (lo, hi) = [] ∧ filtered_articles df (lo, hi) = []) := by
  refine ⟨?_, ?_, ?_⟩
  · intro hhi
    unfold top_agencies
    rw [ilocSlice_nlargest, List.take_of_length_le (by rw [ranked_length]; exact hhi)]
  · intro hhi
    unfold top_agencies_table
    rw [ilocSlice_nlargest, List.take_of_length_le (by rw [ranked_length]; exact hhi)]
  · intro hlt
    have hempty1 : top_agencies data (lo, hi) = [] := by
      unfold top_agencies
      rw [ilocSlice_nlargest, List.drop_eq_nil_of_le, List.map_nil]
      calc ((ranked (groupby_sum data)).take hi).length ≤ hi :=
            by rw [List.length_take]; exact min_le_left _ _
        _ ≤ lo - 1 := by omega
    have hempty2 : top_agencies_table df (lo, hi) = [] := by
      unfold top_agencies_table
      rw [ilocSlice_nlargest, List.drop_eq_nil_of_le, List.map_nil]
      calc ((ranked (groupby_count df)).take hi).length ≤ hi :=
            by rw [List.length_take]; exact min_le_left _ _
        _ ≤ lo - 1 := by omega
    refine ⟨hempty1, ?_, hempty2, ?_⟩
    · unfold plot_by_agency
      rw [hempty1]
      exact List.filter_eq_nil_iff.2 (fun r _ => by simp)
    · unfold filtered_articles
      rw [hempty2]
      exact List.filter_eq_nil_iff.2 (fun a _ => by simp)

/-- Witness for C4: with two distinct agencies, the window (1, 5) clamps to both
agencies and the inverted window (3, 2) selects nothing. -/
theorem c4_rank_window_clamp_witness :
    top_agencies_table [artA1, artA2, artB1] (1, 5)
        = ((ranked (groupby_count [artA1, artA2, artB1])).drop 0).map Prod.fst ∧
      filtered_articles [artA1, artA2, artB1] (3, 2) = [] := by
  refine ⟨(c4_rank_window_clamp [] [artA1, artA2, artB1] 1 5 (by decide)).2.1 (by decide), ?_⟩
  exact ((c4_rank_window_clamp [] [artA1, artA2, artB1] 3 2 (by decide)).2.2 (by decide)).2.2.2

/-- A window (k, k) with k within range slices out exactly the k-th entry of
the descending order. -/
theorem slice_kk (s : List (String × Nat)) (k : Nat) (h1 : 1 ≤ k) (hk : k ≤ s.length) :
    ∃ h : k - 1 < (ranked s).length,
      (ilocSlice (series_nlargest s k) k k).map Prod.fst = [((ranked s).get ⟨k - 1, h⟩).1] := by
  have hlen : (ranked s).length = s.length := ranked_length s
  have hlt : k - 1 < (ranked s).length := by omega
  refine ⟨hlt, ?_⟩
  rw [ilocSlice_nlargest]
  have htk : k - 1 < ((ranked s).take k).length := by
    rw [List.length_take]
    exact lt_min_iff.2 ⟨by omega, by omega⟩
  rw [List.drop_eq_getElem_cons htk]
  have hdrop : List.drop (k - 1 + 1) ((ranked s).take k) = [] := by
    refine List.drop_eq_nil_of_le ?_
    rw [List.length_take]
    exact le_trans (min_le_left _ _) (by omega)
  rw [hdrop, List.getElem_take, List.map_cons, List.map_nil, List.get_eq_getElem]

/-- A window (k, k) with k past the number of agencies slices out nothing. -/
theorem slice_kk_empty (s : List (String × Nat)) (k : Nat) (hk : s.length < k) :
    ilocSlice (series_nlargest s k) k k = [] := by
  rw [ilocSlice_nlargest]
  refine List.drop_eq_nil_of_le ?_
  rw [List.length_take, ranked_length]
  exact le_trans (min_le_right _ _) (by omega)

/-- CLAIM C6: a rank window (k, k) selects exactly one agency, the k-th entry
of the descending order, when k is at most the number of distinct agencies, and
selects none when k exceeds it; in both rank-selection variants. -/
theorem c6_rank_singleton (data : List (Nat × String × Nat)) (df : List Article)
    (k : Nat) (h1 : 1 ≤ k) :
    (k ≤ (groupby_sum data).length →
      ∃ h : k - 1 < (ranked (groupby_sum data)).length,
        top_agencies data (k, k) = [((ranked (groupby_sum data)).get ⟨k - 1, h⟩).1]) ∧
    ((groupby_sum data).length < k → top_agencies data (k, k) = []) ∧
    (k ≤ (groupby_count df).length →
      ∃ h : k - 1 < (ranked (groupby_count df)).length,
        top_agencies_table df (k, k) = [((ranked (groupby_count df)).get ⟨k - 1, h⟩).1]) ∧
    ((groupby_count df).length < k → top_agencies_table df (k, k) = []) := by
  refine ⟨?_, ?_, ?_, ?_⟩
  · intro hk
    obtain ⟨h, heq⟩ := slice_kk (groupby_sum data) k h1 hk
    exact ⟨h, heq⟩
  · intro hk
    unfold top_agencies
    rw [slice_kk_empty (groupby_sum data) k hk, List.map_nil]
  · intro hk
    obtain ⟨h, heq⟩ := slice_kk (groupby_count df) k h1 hk
    exact ⟨h, heq⟩
  · intro hk
    unfold top_agencies_table
    rw [slice_kk_empty (groupby_count df) k hk, List.map_nil]

/-- Witness for C6 on the spec's scenario dataset: window (1, 1) selects the
top-ranked agency and window (3, 3) selects none (only 2 agencies exist). -/
theorem c6_rank_singleton_witness :
    (∃ h : 0 < (ranked (groupby_count [artA1, artA2, artB1])).length,
      top_agencies_table [artA1, artA2, artB1] (1, 1)
        = [((ranked (groupby_count [artA1, artA2, artB1])).get ⟨0, h⟩).1]) ∧
    top_agencies_table [artA1, artA2, artB1] (3, 3) = [] :=
  ⟨(c6_rank_singleton [] [artA1, artA2, artB1] 1 (by decide)).2.2.1 (by decide),
   (c6_rank_singleton [] [artA1, artA2, artB1] 3 (by decide)).2.2.2 (by decide)⟩

/-- Strict ascending order of agency names on series entries. -/
def nameLt (p q : String × Nat) : Prop := p.1.data < q.1.data

/-- The deterministic ranking order: strictly greater total first, and on equal
totals the lexicographically smaller agency name first. -/
def rankRel (p q : String × Nat) : Prop :=
  q.2 < p.2 ∨ (p.2 = q.2 ∧ p.1.data < q.1.data)

/-- Two distinct members of a list occur in one order or the other. -/
theorem mem_pair_sublist {α : Type} {l : List α} {a b : α} (ha : a ∈ l) (hb : b ∈ l)
    (hne : a ≠ b) : [a, b].Sublist l ∨ [b, a].Sublist l := by
  induction l with
  | nil => cases ha
  | cons x xs ih =>
    rcases List.mem_cons.1 ha with rfl | ha'
    · have hb' : b ∈ xs := by
        rcases List.mem_cons.1 hb with rfl | hb'
        · exact absurd rfl hne
        · exact hb'
      exact Or.inl (List.Sublist.cons₂ a (List.singleton_sublist.2 hb'))
    · rcases List.mem_cons.1 hb with rfl | hb'
      · exact Or.inr (List.Sublist.cons₂ b (List.singleton_sublist.2 ha'))
      · rcases ih ha' hb' with h | h
        · exact Or.inl (h.cons x)
        · exact Or.inr (h.cons x)

/-- In a list without duplicates, two elements cannot occur in both orders. -/
theorem pair_sublist_antisymm {α : Type} {l : List α} (hl : l.Nodup) {a b : α}
    (h1 : [a, b].Sublist l) (h2 : [b, a].Sublist l) : a = b := by
  induction l with
  | nil => exact absurd h1 (by simp)
  | cons x xs ih =>
    rcases List.nodup_cons.1 hl with ⟨hx, hxs⟩
    cases h1 with
    | cons _ h1' =>
      cases h2 with
      | cons _ h2' => exact ih hxs h1' h2'
      | cons₂ _ h2' => exact absurd (h1'.subset (by simp)) hx
    | cons₂ _ h1' =>
      cases h2 with
      | cons _ h2' => exact absurd (h2'.subset (by simp)) hx
      | cons₂ _ h2' => rfl

/-- Stability of the descending selection: when the input series is strictly
ascending by agency name — which a string-keyed groupby index always is — the
descending order ranks equal totals by agency name ascending. -/
theorem ranked_pairwise_rank (s : List (String × Nat)) (hs : s.Pairwise nameLt) :
    (ranked s).Pairwise rankRel := by
  have hnodup : s.Nodup := by
    rw [List.nodup_iff_sublist]
    intro x hx
    exact absurd (List.pairwise_iff_forall_sublist.1 hs hx) (lt_irrefl x.1.data)
  have hrnodup : (ranked s).Nodup :=
    (List.perm_insertionSort countDesc s).symm.nodup hnodup
  have hsorted : (ranked s).Pairwise countDesc := List.sorted_insertionSort countDesc s
  rw [List.pairwise_iff_forall_sublist]
  intro a b hab
  have hle : b.2 ≤ a.2 := List.pairwise_iff_forall_sublist.1 hsorted hab
  rcases lt_or_eq_of_le hle with hlt | heq
  · exact Or.inl hlt
  · refine Or.inr ⟨heq.symm, ?_⟩
    have hne : a ≠ b := by
      rintro rfl
      exact (List.nodup_iff_sublist.1 hrnodup a) hab
    have hmem := hab.subset
    have ha : a ∈ s :=
      (List.perm_insertionSort countDesc s).subset (hmem (by simp))
    have hb : b ∈ s :=
      (List.perm_insertionSort countDesc s).subset (hmem (by simp))
    rcases mem_pair_sublist ha hb hne with h | h
    · exact List.pairwise_iff_forall_sublist.1 hs h
    · have hpair : ([b, a] : List (String × Nat)).Pairwise countDesc := by
        refine List.pairwise_cons.2 ⟨?_, by simp⟩
        intro q hq
        rcases List.mem_singleton.1 hq with rfl
        exact heq.symm.le
      have hba : [b, a].Sublist (ranked s) := List.sublist_insertionSort hpair h
      exact absurd (pair_sublist_antisymm hrnodup hab hba) hne

/-- A sorted deduplicated string list is strictly ascending by character data. -/
theorem sortedAgs_strict (ags : List String) :
    (List.insertionSort agAsc ags.dedup).Pairwise (fun a b => a.data < b.data) := by
  have hsorted : (List.insertionSort agAsc ags.dedup).Pairwise agAsc :=
    List.sorted_insertionSort agAsc ags.dedup
  have hnodup : (List.insertionSort agAsc ags.dedup).Nodup :=
    (List.perm_insertionSort agAsc ags.dedup).symm.nodup (List.nodup_dedup ags)
  refine (hsorted.and hnodup).imp ?_
  rintro a b ⟨hle, hne⟩
  refine lt_of_le_of_ne hle ?_
  intro hdata
  refine hne ?_
  cases a
  cases b
  exact congrArg String.mk hdata

theorem groupby_sum_pairwise (data : List (Nat × String × Nat)) :
    (groupby_sum data).Pairwise nameLt := by
  unfold groupby_sum
  rw [List.pairwise_map]
  exact (sortedAgs_strict _).imp (fun h => h)

theorem groupby_count_pairwise (df : List Article) :
    (groupby_count df).Pairwise nameLt := by
  unfold groupby_count
  rw [List.pairwise_map]
  exact (sortedAgs_strict _).imp (fun h => h)

/-- CLAIM C10: in both rank-selection variants the per-agency totals series is
produced in agency-name-ascending order, and the stable descending selection of
nlargest therefore ranks agencies with equal totals by agency name ascending;
the selected agency set for a rank window is a contiguous slice of this fully
deterministic ranking. -/
theorem c10_tie_break (data : List (Nat × String × Nat)) (df : List Article) :
    (ranked (groupby_sum data)).Pairwise rankRel ∧
      (ranked (groupby_count df)).Pairwise rankRel :=
  ⟨ranked_pairwise_rank _ (groupby_sum_pairwise data),
   ranked_pairwise_rank _ (groupby_count_pairwise df)⟩

/-- The sort key of display_filtered_articles line 261-263:
sort_values(by=["published_at", "agency"], ascending=[False, True]), i.e.
published timestamp descending, then agency name ascending. -/
def pubDesc (a b : Article) : Prop :=
  b.published_at < a.published_at ∨
    (a.published_at = b.published_at ∧ a.agency.data ≤ b.agency.data)

instance : DecidableRel pubDesc := by
  intro a b
  unfold pubDesc
  infer_instance

instance : IsTotal Article pubDesc := by
  refine ⟨fun a b => ?_⟩
  unfold pubDesc
  rcases Nat.lt_trichotomy a.published_at b.published_at with h | h | h
  · exact Or.inr (Or.inl h)
  · rcases le_total a.agency.data b.agency.data with h2 | h2
    · exact Or.inl (Or.inr ⟨h, h2⟩)
    · exact Or.inr (Or.inr ⟨h.symm, h2⟩)
  · exact Or.inl (Or.inl h)

instance : IsTrans Article pubDesc := by
  refine ⟨fun a b c h1 h2 => ?_⟩
  unfold pubDesc at h1 h2 ⊢
  rcases h1 with h1 | ⟨h1e, h1s⟩
  · rcases h2 with h2 | ⟨h2e, _⟩
    · exact Or.inl (h2.trans h1)
    · exact Or.inl (h2e ▸ h1)
  · rcases h2 with h2 | ⟨h2e, h2s⟩
    · exact Or.inl (h1e.symm ▸ h2)
    · exact Or.inr ⟨h1e.trans h2e, h1s.trans h2s⟩

/-- The stable multi-column sort of sort_values (numpy lexsort). -/
def sorted_articles (l : List Article) : List Article :=
  List.insertionSort pubDesc l

/-- Two-digit zero padding of a calendar field. -/
def pad2 (n : Nat) : String :=
  if n < 10 then "0" ++ toString n else toString n

/-- strftime("%d/%m/%Y") on the encoded timestamp: day, month and year are
recovered from the encoding (y*100 + m)*100*10000 + d*10000 + timeOfDay. -/
def published_date (t : Nat) : String :=
  pad2 (t / 10000 % 100) ++ "/" ++ pad2 (t / 1000000 % 100) ++ "/" ++ toString (t / 100000000)

/-- The table shown by display_filtered_articles (lines 260-273): rank-filtered
articles sorted by (published_at desc, agency asc), projected to the columns
published_date, agency, title, url. -/
def displayed_columns (df : List Article) (rank_range : Nat × Nat) :
    List (String × String × String × String) :=
  (sorted_articles (filtered_articles df rank_range)).map
    (fun a => (published_date a.published_at, a.agency, a.title, a.url))

/-- CLAIM C8: the article table is a permutation of the rank-filtered set,
sorted by published timestamp descending with ties by agency name ascending,
and each row carries the date string derived from its published_at. -/
theorem c8_article_table (df : List Article) (rank_range : Nat × Nat) :
    (sorted_articles (filtered_articles df rank_range)).Pairwise pubDesc ∧
    (sorted_articles (filtered_articles df rank_range)).Perm
      (filtered_articles df rank_range) ∧
    ∀ row ∈ displayed_columns df rank_range, ∃ a ∈ filtered_articles df rank_range,
      row = (published_date a.published_at, a.agency, a.title, a.url) := by
  refine ⟨List.sorted_insertionSort pubDesc _, List.perm_insertionSort pubDesc _, ?_⟩
  intro row hrow
  rcases List.mem_map.1 hrow with ⟨a, ha, rfl⟩
  exact ⟨a, (List.perm_insertionSort pubDesc _).subset ha, rfl⟩

/-- CLAIM C9: for every agency present in the filtered set, the total used by
the table-display rank selector is the raw number of filtered articles of that
agency, which is also what the by-agency aggregation's counts for that agency
sum to. -/
theorem c9_table_totals (df : List Article) (g : Granularity) (ag : String)
    (h : ag ∈ df.map (fun a => a.agency)) :
    (ag, (df.filter (fun a => decide (a.agency = ag))).length) ∈ groupby_count df ∧
    (((aggregate_by_agency df g).filter (fun r => decide (r.2.1 = ag))).map
        (fun r => r.2.2)).sum
      = (df.filter (fun a => decide (a.agency = ag))).length := by
  constructor
  · unfold groupby_count
    refine List.mem_map.2 ⟨ag, ?_, rfl⟩
    rw [(List.perm_insertionSort agAsc _).mem_iff, List.mem_dedup]
    exact h
  · unfold aggregate_by_agency
    rw [List.filter_map, List.map_map]
    have hsd := sortedDedup_nodup_mem keyAsc (df.map (fun a => (granValue g a, a.agency)))
    have hmain := sum_count_over (df.map (fun a => (granValue g a, a.agency)))
      (List.insertionSort keyAsc ((df.map (fun a => (granValue g a, a.agency))).dedup))
      (fun k => decide (k.2 = ag)) hsd.1 (fun k hk _ => (hsd.2 k).2 hk)
    have hcp : (df.map (fun a => (granValue g a, a.agency))).countP (fun k => decide (k.2 = ag))
        = (df.filter (fun a => decide (a.agency = ag))).length := by
      rw [List.countP_map, ← List.countP_eq_length_filter]
      refine List.countP_congr ?_
      intro a _
      exact Iff.rfl
    exact hmain.trans hcp

/-- Witness for C9 on the spec's scenario dataset, at agency A. -/
theorem c9_table_totals_witness :
    (("A", ([artA1, artA2, artB1].filter (fun a => decide (a.agency = "A"))).length)
        ∈ groupby_count [artA1, artA2, artB1]) ∧
    (((aggregate_by_agency [artA1, artA2, artB1] Granularity.day).filter
          (fun r => decide (r.2.1 = "A"))).map (fun r => r.2.2)).sum
      = ([artA1, artA2, artB1].filter (fun a => decide (a.agency = "A"))).length :=
  c9_table_totals [artA1, artA2, artB1] Granularity.day "A" (by decide)

/-- get_min_max_values: the minimum and maximum of the day column. -/
def get_min_max_values (df : List Article) : Option Nat × Option Nat :=
  ((df.map (fun a => a.day)).min?, (df.map (fun a => a.day)).max?)

/-- run line 329: the slider's hard minimum is the fixed calendar date
datetime(2000, 1, 1).date(), in the day encoding. -/
def slider_min_value : Nat := 20000101

/-- run line 324: the day minimum of the dataset is discarded
("_, max_value = self.get_min_max_values()"); only the maximum feeds the
slider's upper bound. -/
def slider_max_value (df : List Article) : Option Nat :=
  (get_min_max_values df).2

/-- A day the slider of run (lines 327-336) lets the user select: between the
fixed minimum 2000-01-01 and the dataset's maximum day. -/
def day_selectable (df : List Article) (d : Nat) : Bool :=
  decide (slider_min_value ≤ d) &&
    match slider_max_value df with
    | some m => decide (d ≤ m)
    | none => false

/-- COUNTEREXAMPLE to C7: on a dataset whose earliest day is 2021-01-01, the
start date 2000-01-01 is selectable on the slider even though it is earlier
than the dataset's minimum day — run discards the minimum returned by
get_min_max_values and hard-codes datetime(2000, 1, 1) as the slider minimum. -/
theorem c7_counterexample :
    day_selectable [artA1] 20000101 = true ∧
      (get_min_max_values [artA1]).1 = some 20210101 ∧ 20000101 < 20210101 := by
  decide

/-- CLAIM C7 as amended: every selectable day is at least the fixed date
2000-01-01 (the slider's hard minimum, independent of the dataset) and at most
some day present in the dataset (the upper bound is clamped to the dataset's
maximum day); the lower bound is not clamped to the dataset's minimum day. -/
theorem c7_amended_slider_bounds (df : List Article) (d : Nat)
    (hd : day_selectable df d = true) :
    slider_min_value ≤ d ∧ ∃ b, b ∈ df ∧ d ≤ b.day := by
  unfold day_selectable at hd
  cases hmx : slider_max_value df with
  | none =>
    rw [hmx] at hd
    simp at hd
  | some m =>
    rw [hmx] at hd
    simp only [Bool.and_eq_true, decide_eq_true_eq] at hd
    refine ⟨hd.1, ?_⟩
    have hor : ∀ a b : Nat, a ⊔ b = a ∨ a ⊔ b = b := by
      intro a b
      rcases le_total b a with h | h
      · exact Or.inl (max_eq_left h)
      · exact Or.inr (max_eq_right h)
    have hm : m ∈ df.map (fun b => b.day) := List.max?_mem hor hmx
    rcases List.mem_map.1 hm with ⟨b, hb, rfl⟩
    exact ⟨b, hb, hd.2⟩

/-- Witness for the amended C7: on a two-article dataset, the day 2021-01-01 is
selectable and indeed bounded by an article's day. -/
theorem c7_amended_slider_bounds_witness :
    slider_min_value ≤ 20210101 ∧ ∃ b, b ∈ [artA1, artA2] ∧ 20210101 ≤ b.day :=
  c7_amended_slider_bounds [artA1, artA2] 20210101 (by decide)

end GovBR
